import Mathlib

/-
Verification of the hikma conversation-memory / context-assembly pipeline.

The JavaScript sources are shallowly embedded:
  * src/memory/MemoryManager.js   -> MemState and its operations
  * src/tools/ToolManager.js      -> Tool, toolScore, findMatchingTool, executeToolFromPrompt
  * src/context/ContextManager.js -> CtxState, addFiles, removeFiles, estimateTokenCount
  * src/chat/ChatSession.js       -> ChatState, sendMessage, chatDeleteConversation

Modelling conventions, used throughout:
  * JS Map objects are association lists in insertion order (keys are unique in a
    JS Map; mapSet replaces an existing binding in place, mapDelete removes the
    bindings of a key).
  * nanoid() returns a fresh nonempty string; it is modelled by a counter nextId
    starting at 1, so every id is truthy and never reused.
  * new Date().toISOString() timestamps are modelled as a natural number "now"
    supplied by the caller (ISO strings compare like their time values).
  * External effects (shell tool handlers, the Ollama HTTP client, the file
    system, hook callables) are supplied as explicit parameters.
-/

namespace Hikma

/-- Lookup in a JS-Map-like association list (first binding of the key). -/
def mapGet {α : Type} (m : List (Nat × α)) (k : Nat) : Option α :=
  match m with
  | [] => none
  | (k', v) :: rest => if k' = k then some v else mapGet rest k

/-- JS Map.set: replace the binding in place if the key is present, else append. -/
def mapSet {α : Type} (m : List (Nat × α)) (k : Nat) (v : α) : List (Nat × α) :=
  match m with
  | [] => [(k, v)]
  | (k', v') :: rest => if k' = k then (k', v) :: rest else (k', v') :: mapSet rest k v

/-- JS Map.delete: remove the bindings of the key (a JS Map holds at most one). -/
def mapDelete {α : Type} (m : List (Nat × α)) (k : Nat) : List (Nat × α) :=
  match m with
  | [] => []
  | (k', v') :: rest => if k' = k then mapDelete rest k else (k', v') :: mapDelete rest k

/-! ## Data model (src/memory/MemoryManager.js) -/

/-- A chat message, as built by MemoryManager.addMessage. -/
structure Message where
  id : Nat
  role : String
  content : String
  timestamp : Nat
  deriving Repr, DecidableEq

/-- Metadata stored on a conversation after createConversation has merged the
defaults with the caller-supplied metadata object. -/
structure StoredMetadata where
  created : Nat
  lastUpdated : Nat
  messageCount : Int
  title : Option String := none
  model : Option String := none
  deriving Repr, DecidableEq

/-- The caller-supplied metadata argument of createConversation.  A field that is
some x models a JS object that carries that key with value x; none models an
absent key.  The JS spread written as three dots in
  metadata: (created, lastUpdated, messageCount: 0, ...metadata)
lets each present key of the argument override the corresponding default. -/
structure MetadataArg where
  created : Option Nat := none
  lastUpdated : Option Nat := none
  messageCount : Option Int := none
  title : Option String := none
  model : Option String := none
  deriving Repr, DecidableEq

structure Conversation where
  id : Nat
  messages : List Message
  metadata : StoredMetadata
  summary : Option String
  deriving Repr, DecidableEq

/-- MemoryManager constructor options (defaults maxMessages 100, summarizeThreshold 50). -/
structure MemOptions where
  maxMessages : Int := 100
  summarizeThreshold : Int := 50
  deriving Repr, DecidableEq

/-- The state of a MemoryManager instance. -/
structure MemState where
  options : MemOptions
  conversations : List (Nat × Conversation)
  activeConversationId : Option Nat
  nextId : Nat
  deriving Repr, DecidableEq

/-- A freshly constructed MemoryManager (empty conversation map, no active id). -/
def initMemState (opts : MemOptions) : MemState :=
  { options := opts, conversations := [], activeConversationId := none, nextId := 1 }

/-- MemoryManager.createConversation.  Builds the conversation with the defaults,
each possibly overridden by the caller metadata (JS object spread), inserts it
and makes it active; returns the new id. -/
def createConversation (s : MemState) (now : Nat) (md : MetadataArg) : MemState × Nat :=
  let id := s.nextId
  let conv : Conversation :=
    { id := id
      messages := []
      metadata :=
        { created := md.created.getD now
          lastUpdated := md.lastUpdated.getD now
          messageCount := md.messageCount.getD 0
          title := md.title
          model := md.model }
      summary := none }
  ({ s with
      conversations := mapSet s.conversations id conv
      activeConversationId := some id
      nextId := id + 1 }, id)

/-- MemoryManager.setActiveConversation: succeeds iff the id exists. -/
def setActiveConversation (s : MemState) (conversationId : Nat) : MemState × Bool :=
  if (mapGet s.conversations conversationId).isSome then
    ({ s with activeConversationId := some conversationId }, true)
  else (s, false)

/-- MemoryManager.getActiveConversation. -/
def getActiveConversation (s : MemState) : Option Conversation :=
  match s.activeConversationId with
  | none => none
  | some id => mapGet s.conversations id

/-- Target resolution used by addMessage and getMessages: the JS expression
conversationId or-else this.activeConversationId (ids are truthy strings). -/
def resolveTarget (s : MemState) (conversationId : Option Nat) : Option Nat :=
  match conversationId with
  | some c => some c
  | none => s.activeConversationId

/-- MemoryManager.addMessage.  Appends the message, bumps messageCount and
lastUpdated, runs the summarize trigger (the base-class summarizeConversation is
a no-op that only logs), then evicts from the front when maxMessages is positive
and exceeded; JS splice(0, excessCount) is List.drop excessCount. -/
def addMessage (s : MemState) (now : Nat) (role content : String)
    (conversationId : Option Nat) : MemState × Option Message :=
  match resolveTarget s conversationId with
  | none => (s, none)
  | some t =>
    match mapGet s.conversations t with
    | none => (s, none)
    | some conv =>
      let message : Message :=
        { id := s.nextId, role := role, content := content, timestamp := now }
      let pushed := conv.messages ++ [message]
      let kept :=
        if s.options.maxMessages > 0 ∧ (pushed.length : Int) > s.options.maxMessages then
          pushed.drop (pushed.length - s.options.maxMessages.toNat)
        else pushed
      let conv' :=
        { conv with
            messages := kept
            metadata :=
              { conv.metadata with
                  messageCount := conv.metadata.messageCount + 1
                  lastUpdated := now } }
      ({ s with conversations := mapSet s.conversations t conv', nextId := s.nextId + 1 },
       some message)

/-- MemoryManager.getMessages (returns a snapshot copy; copying is implicit in a
pure model). -/
def getMessages (s : MemState) (conversationId : Option Nat) : Option (List Message) :=
  match resolveTarget s conversationId with
  | none => none
  | some t => (mapGet s.conversations t).map (fun c => c.messages)

/-- MemoryManager.deleteConversation. -/
def deleteConversation (s : MemState) (conversationId : Nat) : MemState × Bool :=
  if (mapGet s.conversations conversationId).isSome then
    let s' := { s with conversations := mapDelete s.conversations conversationId }
    if s.activeConversationId = some conversationId then
      ({ s' with activeConversationId := none }, true)
    else (s', true)
  else (s, false)

/-- MemoryManager.getAllConversations (Map values in insertion order). -/
def getAllConversations (s : MemState) : List Conversation :=
  s.conversations.map (fun e => e.2)

/-- MemoryManager.clearAllConversations. -/
def clearAllConversations (s : MemState) : MemState :=
  { s with conversations := [], activeConversationId := none }

/-! ## Operation traces over a MemoryManager (for the trace-level invariants) -/

/-- One mutating MemoryManager call (reads do not change the state). -/
inductive MemOp where
  | create (now : Nat) (md : MetadataArg)
  | setActive (id : Nat)
  | add (now : Nat) (role content : String) (conversationId : Option Nat)
  | delete (id : Nat)
  | clearAll
  deriving Repr

/-- Effect of one MemoryManager call on the state. -/
def memStep (s : MemState) (op : MemOp) : MemState :=
  match op with
  | .create now md => (createConversation s now md).1
  | .setActive id => (setActiveConversation s id).1
  | .add now role content cid => (addMessage s now role content cid).1
  | .delete id => (deleteConversation s id).1
  | .clearAll => clearAllConversations s

/-- Run a sequence of MemoryManager calls. -/
def memRun (s : MemState) (ops : List MemOp) : MemState :=
  ops.foldl memStep s

/-- Number of successful addMessage calls in the trace whose resolved target is
conversation i (resolution and success evaluated in the state each call runs in). -/
def countAdds (s : MemState) (ops : List MemOp) (i : Nat) : Nat :=
  match ops with
  | [] => 0
  | op :: rest =>
    let here :=
      match op with
      | .add now role content cid =>
        if resolveTarget s cid = some i ∧ (addMessage s now role content cid).2.isSome
        then 1 else 0
      | _ => 0
    here + countAdds (memStep s op) rest i

/-- Representation invariant of the fresh-id supply: every conversation key was
handed out by the counter, so the next id is unused. -/
def memInv (s : MemState) : Prop :=
  ∀ e ∈ s.conversations, e.1 < s.nextId

instance (s : MemState) : Decidable (memInv s) := by
  unfold memInv; infer_instance

/-! ## Tool dispatch (src/tools/ToolManager.js) -/

/-- ASCII lowering of one character; models what String.prototype.toLowerCase
does on the ASCII keywords and prompts involved. -/
def lowerChar (c : Char) : Char :=
  if 65 ≤ c.toNat ∧ c.toNat ≤ 90 then Char.ofNat (c.toNat + 32) else c

/-- JS s.toLowerCase(). -/
def lowerStr (s : String) : String :=
  ⟨s.data.map lowerChar⟩

/-- JS hay.includes(needle): needle occurs as a contiguous substring. -/
def strIncludes (hay needle : String) : Bool :=
  hay.data.tails.any (fun t => needle.data.isPrefixOf t)

/-- A registered tool.  The execution handler is an external side-effecting
callable; it is supplied separately (see executeToolFromPrompt). -/
structure Tool where
  name : String
  keywords : List String
  description : String
  deriving Repr, DecidableEq

/-- Keywords of the tool that occur (case-insensitively) in the normalized
prompt, in registration order. -/
def matchedKeywords (tool : Tool) (normalizedPrompt : String) : List String :=
  tool.keywords.filter (fun keyword => strIncludes normalizedPrompt (lowerStr keyword))

/-- Score of one tool against the normalized prompt: each matched keyword
contributes its own character length, plus a flat bonus of five per matched
keyword when more than one keyword matched. -/
def toolScore (tool : Tool) (normalizedPrompt : String) : Nat :=
  let matched := matchedKeywords tool normalizedPrompt
  let base := (matched.map (fun keyword => (lowerStr keyword).length)).sum
  if matched.length > 1 then base + matched.length * 5 else base

/-- The for-loop of findMatchingTool: walk the tools in registration order,
replacing the best match only when a score strictly exceeds the running best. -/
def bestToolAux (normalizedPrompt : String) (best : Option Tool × Nat)
    (tools : List Tool) : Option Tool × Nat :=
  match tools with
  | [] => best
  | tool :: rest =>
    let score := toolScore tool normalizedPrompt
    bestToolAux normalizedPrompt (if score > best.2 then (some tool, score) else best) rest

/-- ToolManager.findMatchingTool: best match starts at (null, 0) and is returned
only when the final best score is positive. -/
def findMatchingTool (tools : List Tool) (prompt : String) : Option Tool :=
  let best := bestToolAux (lowerStr prompt) ((none : Option Tool), 0) tools
  if best.2 > 0 then best.1 else none

/-- Result object returned by a tool handler or by executeToolFromPrompt. -/
structure ToolRes where
  success : Bool
  result : String := ""
  error : String := ""
  toolName : String := ""
  deriving Repr, DecidableEq

/-- ToolManager.executeToolFromPrompt.  Handlers run shell commands and read
files (external effects); the environment supplies each handler outcome as a
function of the tool name and the prompt.  A handler that throws is modelled by
the environment returning the caught structured failure, exactly what the
try/catch in the source produces. -/
def executeToolFromPrompt (handler : String → String → ToolRes)
    (tools : List Tool) (prompt : String) : ToolRes :=
  match findMatchingTool tools prompt with
  | none => { success := false, error := "No matching tool found for this prompt" }
  | some tool => handler tool.name prompt

/-- The six default registrations of ToolManager.registerDefaultTools, in order. -/
def defaultTools : List Tool :=
  [ { name := "git_pull_request"
      keywords := ["pull request", "pr", "github pr", "check pr", "show pr"]
      description := "Check current branch pull request details" },
    { name := "git_diff"
      keywords := ["diff", "changes", "git diff", "check changes", "show changes",
                   "what changed", "changes made", "modifications",
                   "git status changes", "working directory changes"]
      description := "Show git diff of current changes" },
    { name := "git_status"
      keywords := ["git status", "status", "repository status", "repo status",
                   "working tree status"]
      description := "Show git repository status" },
    { name := "list_directory"
      keywords := ["list files", "ls", "show files", "directory contents",
                   "current directory", "list directory"]
      description := "List files in the current directory" },
    { name := "read_file"
      keywords := ["read file", "show file", "cat file", "display file", "view file"]
      description := "Read and display file contents" },
    { name := "execute_command"
      keywords := ["run command", "execute", "shell command", "bash command",
                   "terminal command"]
      description := "Execute a shell command" } ]

/-! ## Context assembly (src/context/ContextManager.js) -/

/-- A node of the external file system as the ContextManager observes it through
fs.statSync / fs.readFileSync / fs.readdirSync.  For a file node, ext models
path.extname(resolvedPath).toLowerCase() and content is none when reading the
file throws. -/
inductive FsNode where
  | file (size : Nat) (ext : String) (content : Option String)
  | dir (entries : List (String × FsNode))

/-- The external path and file-system services (path.resolve and the fs module). -/
structure Fs where
  resolve : String → String
  lookup : String → Option FsNode

/-- Per-file entry of a batch result. -/
structure FileRes where
  file : String
  success : Bool
  error : String := ""
  isDirectory : Bool := false
  filesAdded : Nat := 0
  filesSkipped : Nat := 0
  deriving Repr, DecidableEq

/-- Overall result of addFiles / removeFiles. -/
structure BatchRes where
  success : Bool
  results : List FileRes
  totalFiles : Nat
  deriving Repr, DecidableEq

/-- ContextManager state: per-conversation context file sets and hook sets.
Hook callables are external; a hook is represented by its name. -/
structure CtxState where
  contextFiles : List (Nat × List String)
  contextHooks : List (Nat × List String)
  deriving Repr, DecidableEq

/-- A freshly constructed ContextManager. -/
def initCtxState : CtxState :=
  { contextFiles := [], contextHooks := [] }

/-- ContextManager.initializeContext: lazily create the two empty sets. -/
def initializeContext (ctx : CtxState) (conversationId : Nat) : CtxState :=
  { contextFiles :=
      if (mapGet ctx.contextFiles conversationId).isSome then ctx.contextFiles
      else mapSet ctx.contextFiles conversationId []
    contextHooks :=
      if (mapGet ctx.contextHooks conversationId).isSome then ctx.contextHooks
      else mapSet ctx.contextHooks conversationId [] }

/-- JS Set.add on the insertion-ordered set of resolved paths. -/
def setAdd (s : List String) (x : String) : List String :=
  if s.contains x then s else s ++ [x]

/-- ContextManager.maxFileSize (1 MiB). -/
def maxFileSize : Nat := 1048576

/-- ContextManager.supportedExtensions. -/
def supportedExtensions : List String :=
  [".js", ".ts", ".jsx", ".tsx", ".py", ".java", ".cpp", ".c", ".h",
   ".cs", ".php", ".rb", ".go", ".rs", ".kt", ".swift", ".scala",
   ".html", ".css", ".scss", ".less", ".xml", ".json", ".yaml", ".yml",
   ".md", ".txt", ".sql", ".sh", ".bash", ".zsh", ".fish",
   ".dockerfile", ".gitignore", ".env"]

/-- ContextManager.addSingleFile, applied to the file-system node found at the
resolved path: reject non-files, oversized files, unsupported extensions
(extensionless files pass) and unreadable files; otherwise add the resolved
path to the context set. -/
def addSingleFile (cs : List String) (resolvedPath originalPath : String)
    (node : FsNode) : List String × FileRes :=
  match node with
  | .dir _ =>
    (cs, { file := originalPath, success := false, error := "Path is not a file" })
  | .file size ext content =>
    if size > maxFileSize then
      (cs, { file := originalPath, success := false, error := "File too large (max 1MB)" })
    else if ¬ supportedExtensions.contains ext ∧ ext ≠ "" then
      (cs, { file := originalPath, success := false, error := "File type not supported" })
    else
      match content with
      | none =>
        (cs, { file := originalPath, success := false, error := "Error reading file" })
      | some _ => (setAdd cs resolvedPath, { file := originalPath, success := true })

/-- Directory names skipped by the walk in ContextManager.addDirectory. -/
def skipDirNames : List String := ["node_modules", "dist", "build", "out", ".git"]

/-- JS name.startsWith with a one-character dot argument. -/
def startsWithDot (name : String) : Bool :=
  match name.data with
  | c :: _ => c = '.'
  | [] => false

mutual

/-- The recursive processDir closure inside ContextManager.addDirectory, folded
over the entries of one directory; the accumulator is the context set and the
filesAdded / filesSkipped counters.  path.join is modelled as joining with a
slash. -/
def processDirList (currentPath : String) (entries : List (String × FsNode))
    (acc : List String × Nat × Nat) : List String × Nat × Nat :=
  match entries with
  | [] => acc
  | (name, node) :: rest =>
    processDirList currentPath rest (processDirEntry currentPath name node acc)

/-- Handling of one directory entry: skip dotfiles, skip the excluded directory
names, recurse into directories, validate and add files. -/
def processDirEntry (currentPath name : String) (node : FsNode)
    (acc : List String × Nat × Nat) : List String × Nat × Nat :=
  let cs := acc.1
  let added := acc.2.1
  let skipped := acc.2.2
  if startsWithDot name then (cs, added, skipped + 1)
  else
    match node with
    | .dir sub =>
      if skipDirNames.contains name then (cs, added, skipped + 1)
      else processDirList (currentPath ++ "/" ++ name) sub (cs, added, skipped)
    | .file size ext content =>
      let r := addSingleFile cs (currentPath ++ "/" ++ name) (currentPath ++ "/" ++ name)
        (.file size ext content)
      if r.2.success then (r.1, added + 1, skipped) else (r.1, added, skipped + 1)

end

/-- ContextManager.addDirectory: walk the tree; the directory as a whole counts
as a success when at least one contained file was added. -/
def addDirectory (cs : List String) (dirPath : String)
    (entries : List (String × FsNode)) : List String × Bool × Nat × Nat :=
  let walked := processDirList dirPath entries (cs, 0, 0)
  (walked.1, walked.2.1 > 0, walked.2.1, walked.2.2)

/-- Per-path loop of ContextManager.addFiles. -/
def addFilesLoop (fs : Fs) (cs : List String) (paths : List String) :
    List String × List FileRes :=
  match paths with
  | [] => (cs, [])
  | p :: rest =>
    let resolved := fs.resolve p
    let step :=
      match fs.lookup resolved with
      | none =>
        (cs, ({ file := p, success := false, error := "Path does not exist" } : FileRes))
      | some (.dir entries) =>
        let walked := addDirectory cs resolved entries
        (walked.1,
         { file := p, success := walked.2.1, isDirectory := true,
           filesAdded := walked.2.2.1, filesSkipped := walked.2.2.2 })
      | some (.file size ext content) =>
        addSingleFile cs resolved p (.file size ext content)
    let restRun := addFilesLoop fs step.1 rest
    (restRun.1, step.2 :: restRun.2)

/-- ContextManager.addFiles on a batch of paths: per-path validation never
aborts the batch; the batch succeeds when at least one entry succeeded. -/
def addFiles (fs : Fs) (ctx : CtxState) (conversationId : Nat) (paths : List String) :
    CtxState × BatchRes :=
  let ctx := initializeContext ctx conversationId
  let cs := (mapGet ctx.contextFiles conversationId).getD []
  let run := addFilesLoop fs cs paths
  ({ ctx with contextFiles := mapSet ctx.contextFiles conversationId run.1 },
   { success := run.2.any (fun r => r.success)
     results := run.2
     totalFiles := run.1.length })

/-- Per-path loop of ContextManager.removeFiles. -/
def removeFilesLoop (fs : Fs) (cs : List String) (paths : List String) :
    List String × List FileRes :=
  match paths with
  | [] => (cs, [])
  | p :: rest =>
    let resolved := fs.resolve p
    let step :=
      if cs.contains resolved then
        (cs.erase resolved, ({ file := p, success := true } : FileRes))
      else
        (cs, ({ file := p, success := false, error := "File not in context" } : FileRes))
    let restRun := removeFilesLoop fs step.1 rest
    (restRun.1, step.2 :: restRun.2)

/-- ContextManager.removeFiles: the batch succeeds only when every requested
removal succeeded. -/
def removeFiles (fs : Fs) (ctx : CtxState) (conversationId : Nat) (paths : List String) :
    CtxState × BatchRes :=
  let ctx := initializeContext ctx conversationId
  let cs := (mapGet ctx.contextFiles conversationId).getD []
  let run := removeFilesLoop fs cs paths
  ({ ctx with contextFiles := mapSet ctx.contextFiles conversationId run.1 },
   { success := run.2.all (fun r => r.success)
     results := run.2
     totalFiles := run.1.length })

/-- ContextManager.cleanupConversation: drop both sets for the conversation. -/
def cleanupConversation (ctx : CtxState) (conversationId : Nat) : CtxState :=
  { contextFiles := mapDelete ctx.contextFiles conversationId
    contextHooks := mapDelete ctx.contextHooks conversationId }

/-- ContextManager.tokensPerChar. -/
def tokensPerChar : ℚ := 0.25

/-- ContextManager.estimateTokenCount: zero for a falsy (empty) string, else the
ceiling of the character count times tokensPerChar.  JS float multiplication by
0.25 is exact for every representable string length, so the arithmetic is
modelled over the rationals. -/
def estimateTokenCount (text : String) : Nat :=
  if text = "" then 0 else (Int.ceil ((text.length : ℚ) * tokensPerChar)).toNat

/-! ## Session orchestration (src/chat/ChatSession.js) -/

/-- JS x or-else default on an optional string (absent and empty are falsy). -/
def jsOrS (x : Option String) (d : String) : String :=
  match x with
  | some v => if v = "" then d else v
  | none => d

/-- ChatSession settings relevant to the verified behaviour.  The numeric
generation settings (temperature, maxTokens) are forwarded opaquely to the
external model client and play no role here. -/
structure Settings where
  includeSystemPrompt : Bool := true
  systemPrompt : String := "You are a helpful assistant. Respond concisely and accurately."
  model : Option String := none
  deriving Repr, DecidableEq

/-- Result of the external Ollama client generateChatCompletion call. -/
structure OllamaRes where
  success : Bool
  response : String := ""
  error : String := ""
  deriving Repr, DecidableEq

/-- The state of a ChatSession (volatile memory backend). -/
structure ChatState where
  mem : MemState
  ctx : CtxState
  tools : List Tool
  settings : Settings
  initialized : Bool
  activeConversationId : Option Nat

/-- Per-call external environment of a ChatSession turn: the clock, the tool
handlers, the text produced by ContextManager.getFullContext (file and hook
reads are external I/O) and the model client. -/
structure ChatEnv where
  now : Nat
  handler : String → String → ToolRes
  fullContext : String
  ollama : List Message → OllamaRes

/-- ChatSession.createNewConversation.  The metadata object passed to the store
is built as (title or default, model or settings default, ...metadata), where
the trailing spread re-applies every key present on the argument. -/
def createNewConversation (env : ChatEnv) (s : ChatState) (md : MetadataArg) :
    ChatState × Nat :=
  let md' : MetadataArg :=
    { md with
        title := some (md.title.getD "New Conversation")
        model := some (md.model.getD (jsOrS s.settings.model "llama3")) }
  let created := createConversation s.mem env.now md'
  let s₁ := { s with mem := created.1, activeConversationId := some created.2 }
  let s₂ :=
    if s₁.settings.includeSystemPrompt ∧ s₁.settings.systemPrompt ≠ "" then
      { s₁ with
          mem := (addMessage s₁.mem env.now "system" s₁.settings.systemPrompt
            (some created.2)).1 }
    else s₁
  (s₂, created.2)

/-- ChatSession.initialize (volatile backend): create and seed a conversation
when the store is empty, else activate the conversation with the most recent
lastUpdated (the JS reduce starts from the first conversation and keeps the
current one only on a strictly later timestamp). -/
def initSession (env : ChatEnv) (s : ChatState) : ChatState :=
  let s₁ :=
    if (getAllConversations s.mem).length = 0 then
      let created := createConversation s.mem env.now
        { title := some "New Conversation"
          model := some (jsOrS s.settings.model "llama3") }
      let mem₂ :=
        if s.settings.includeSystemPrompt ∧ s.settings.systemPrompt ≠ "" then
          (addMessage created.1 env.now "system" s.settings.systemPrompt (some created.2)).1
        else created.1
      { s with mem := mem₂, activeConversationId := some created.2 }
    else
      match getAllConversations s.mem with
      | [] => s
      | c :: rest =>
        let mostRecent := (c :: rest).foldl
          (fun latest current =>
            if current.metadata.lastUpdated > latest.metadata.lastUpdated then current
            else latest) c
        { s with
            mem := (setActiveConversation s.mem mostRecent.id).1
            activeConversationId := some mostRecent.id }
  { s₁ with initialized := true }

/-- What ChatSession.sendMessage returns, together with the request view that
was passed to the model client (none when the model was not called this turn). -/
structure SendRes where
  success : Bool
  message : Option Message := none
  isToolResult : Bool := false
  error : String := ""
  request : Option (List Message) := none

/-- ChatSession.sendMessage.  Tool dispatch first: on a successful tool result
the raw text and the tagged tool output are appended and the model client is
not called.  Otherwise the raw text is stored, and the request view of history
replaces the content of the last message (when it is a user message) with the
assembled context followed by the raw text; an empty context string is falsy in
JS, so nothing is prepended then.  The none result models the TypeError the JS
would throw when spreading a null getMessages result. -/
def sendMessage (env : ChatEnv) (s : ChatState) (message : String) :
    Option (ChatState × SendRes) :=
  let s := if s.initialized then s else initSession env s
  let toolResult := executeToolFromPrompt env.handler s.tools message
  if toolResult.success then
    let user := addMessage s.mem env.now "user" message s.activeConversationId
    let assistant := addMessage user.1 env.now "assistant"
      ("[Tool: " ++ toolResult.toolName ++ "]\n\n" ++ toolResult.result)
      s.activeConversationId
    some ({ s with mem := assistant.1 },
      { success := true, message := assistant.2, isToolResult := true })
  else
    let contextContent := env.fullContext
    let messageWithContext :=
      if contextContent = "" then message else contextContent ++ message
    let user := addMessage s.mem env.now "user" message s.activeConversationId
    match getMessages user.1 s.activeConversationId with
    | none => none
    | some messages =>
      let messagesWithContext :=
        match messages.getLast? with
        | some lastMsg =>
          if lastMsg.role = "user" then
            messages.dropLast ++ [{ lastMsg with content := messageWithContext }]
          else messages
        | none => messages
      let result := env.ollama messagesWithContext
      if result.success then
        let assistant := addMessage user.1 env.now "assistant" result.response
          s.activeConversationId
        some ({ s with mem := assistant.1 },
          { success := true, message := assistant.2,
            request := some messagesWithContext })
      else
        some ({ s with mem := user.1 },
          { success := false, error := result.error,
            request := some messagesWithContext })

/-- ChatSession.deleteConversation: delete from the store; on success clean up
the context sets for that id and, when the deleted conversation was the
session-active one, immediately create a replacement conversation. -/
def chatDeleteConversation (env : ChatEnv) (s : ChatState) (conversationId : Nat) :
    ChatState × Bool :=
  let deleted := deleteConversation s.mem conversationId
  if deleted.2 then
    let s₁ :=
      { s with mem := deleted.1, ctx := cleanupConversation s.ctx conversationId }
    if s₁.activeConversationId = some conversationId then
      ((createNewConversation env s₁ {}).1, true)
    else (s₁, true)
  else ({ s with mem := deleted.1 }, false)

/-! ## Concrete instances used to exercise the theorems -/

/-- Tool A of the scoring example in the spec. -/
def toolA : Tool :=
  { name := "A", keywords := ["git diff", "diff"], description := "tool A" }

/-- Tool B of the scoring example in the spec. -/
def toolB : Tool :=
  { name := "B", keywords := ["status"], description := "tool B" }

/-- Input of the scoring example in the spec. -/
def demoPrompt : String := "show me the git diff status"

/-- A memory holding one freshly created conversation (id 1, created at time 0). -/
def demoMem : MemState := (createConversation (initMemState {}) 0 {}).1

/-- The conversation record stored in demoMem under id 1. -/
def demoConv : Conversation :=
  { id := 1
    messages := []
    metadata := { created := 0, lastUpdated := 0, messageCount := 0 }
    summary := none }

/-- The conversation of demoMem after one user message hi appended at time 1. -/
def demoConvAfter : Conversation :=
  { id := 1
    messages := [{ id := 2, role := "user", content := "hi", timestamp := 1 }]
    metadata := { created := 0, lastUpdated := 1, messageCount := 1 }
    summary := none }

/-- One registered demo tool triggered by the keyword hi. -/
def demoTools : List Tool :=
  [{ name := "echo", keywords := ["hi"], description := "demo" }]

/-- An initialized session over demoMem with the demo tool registered. -/
def demoChat : ChatState :=
  { mem := demoMem
    ctx := initCtxState
    tools := demoTools
    settings := {}
    initialized := true
    activeConversationId := some 1 }

/-- The same session with no registered tools (every dispatch misses). -/
def demoChatNoTools : ChatState :=
  { demoChat with tools := [] }

/-- Environment in which the matched tool handler succeeds. -/
def demoEnvTool : ChatEnv :=
  { now := 7
    handler := fun n _ => { success := true, result := "ok", toolName := n }
    fullContext := ""
    ollama := fun _ => { success := true, response := "resp" } }

/-- Environment for a model turn: handlers fail, context is nonempty, the model
client answers resp. -/
def demoEnvModel : ChatEnv :=
  { now := 7
    handler := fun _ _ => { success := false }
    fullContext := "CTX "
    ollama := fun _ => { success := true, response := "resp" } }

/-- A file-system view with no entries (every lookup misses). -/
def emptyFs : Fs :=
  { resolve := fun p => p, lookup := fun _ => none }

/-! ## Helper lemmas about the JS-Map model -/

theorem mapGet_mapSet_self {α : Type} (m : List (Nat × α)) (k : Nat) (v : α) :
    mapGet (mapSet m k v) k = some v := by
  induction m with
  | nil => simp [mapGet, mapSet]
  | cons e rest ih =>
    obtain ⟨k', v'⟩ := e
    by_cases h : k' = k
    · simp [mapSet, mapGet, h]
    · simp [mapSet, mapGet, h, ih]

theorem mapGet_mapSet_ne {α : Type} (m : List (Nat × α)) (k j : Nat) (v : α)
    (h : j ≠ k) : mapGet (mapSet m k v) j = mapGet m j := by
  induction m with
  | nil => simp [mapGet, mapSet, Ne.symm h]
  | cons e rest ih =>
    obtain ⟨k', v'⟩ := e
    by_cases hk : k' = k
    · subst hk
      simp [mapSet, mapGet, Ne.symm h]
    · simp only [mapSet, if_neg hk, mapGet]
      by_cases hj : k' = j
      · simp [hj]
      · simp [hj, ih]

theorem mapGet_mapDelete {α : Type} (m : List (Nat × α)) (k j : Nat) :
    mapGet (mapDelete m k) j = if j = k then none else mapGet m j := by
  induction m with
  | nil => simp [mapGet, mapDelete]
  | cons e rest ih =>
    obtain ⟨k', v'⟩ := e
    by_cases hk : k' = k
    · subst hk
      by_cases hj : j = k'
      · subst hj
        simp [mapDelete, mapGet, ih]
      · simp [mapDelete, mapGet, ih, hj, Ne.symm hj]
    · simp only [mapDelete, if_neg hk, mapGet]
      by_cases hj : k' = j
      · subst hj
        simp [mapGet, hk]
      · simp [mapGet, hj, ih]

theorem mapGet_mem {α : Type} (m : List (Nat × α)) (k : Nat) (v : α)
    (h : mapGet m k = some v) : (k, v) ∈ m := by
  induction m with
  | nil => simp [mapGet] at h
  | cons e rest ih =>
    obtain ⟨k', v'⟩ := e
    by_cases hk : k' = k
    · subst hk
      simp [mapGet] at h
      simp [h]
    · simp only [mapGet, if_neg hk] at h
      exact List.mem_cons_of_mem _ (ih h)

theorem mem_mapSet {α : Type} (m : List (Nat × α)) (k : Nat) (v : α) (e : Nat × α)
    (h : e ∈ mapSet m k v) : e ∈ m ∨ e = (k, v) := by
  induction m with
  | nil => simp [mapSet] at h; simp [h]
  | cons e' rest ih =>
    obtain ⟨k', v'⟩ := e'
    by_cases hk : k' = k
    · subst hk
      simp only [mapSet, if_pos rfl] at h
      rcases List.mem_cons.mp h with h | h
      · right; simpa using h
      · left; exact List.mem_cons_of_mem _ h
    · simp only [mapSet, if_neg hk] at h
      rcases List.mem_cons.mp h with h | h
      · left; simp [h]
      · rcases ih h with h | h
        · left; exact List.mem_cons_of_mem _ h
        · right; exact h

theorem mem_mapDelete {α : Type} (m : List (Nat × α)) (k : Nat) (e : Nat × α)
    (h : e ∈ mapDelete m k) : e ∈ m := by
  induction m with
  | nil => simp [mapDelete] at h
  | cons e' rest ih =>
    obtain ⟨k', v'⟩ := e'
    by_cases hk : k' = k
    · simp only [mapDelete, if_pos hk] at h
      exact List.mem_cons_of_mem _ (ih h)
    · simp only [mapDelete, if_neg hk] at h
      rcases List.mem_cons.mp h with h | h
      · simp [h]
      · exact List.mem_cons_of_mem _ (ih h)

/-! ## Characterization of addMessage -/

/-- Closed form of a successful addMessage call. -/
theorem addMessage_eq (s : MemState) (now : Nat) (role content : String)
    (cid : Option Nat) (t : Nat) (conv : Conversation)
    (ht : resolveTarget s cid = some t)
    (hconv : mapGet s.conversations t = some conv) :
    addMessage s now role content cid =
      ({ s with
          conversations := mapSet s.conversations t
            { conv with
                messages :=
                  if s.options.maxMessages > 0 ∧
                      (((conv.messages ++
                          [({ id := s.nextId, role := role, content := content,
                              timestamp := now } : Message)]).length : Int) >
                        s.options.maxMessages) then
                    (conv.messages ++
                      [({ id := s.nextId, role := role, content := content,
                          timestamp := now } : Message)]).drop
                      ((conv.messages ++
                        [({ id := s.nextId, role := role, content := content,
                            timestamp := now } : Message)]).length -
                        s.options.maxMessages.toNat)
                  else
                    conv.messages ++
                      [({ id := s.nextId, role := role, content := content,
                          timestamp := now } : Message)]
                metadata :=
                  { conv.metadata with
                      messageCount := conv.metadata.messageCount + 1
                      lastUpdated := now } }
          nextId := s.nextId + 1 },
       some { id := s.nextId, role := role, content := content, timestamp := now }) := by
  simp only [addMessage, ht, hconv]

/-! ## Claim C8: token estimation -/

theorem tokensPerChar_eq : tokensPerChar = 1 / 4 := by
  norm_num [tokensPerChar]

theorem ceil_quarter (n : ℕ) :
    ⌈(n : ℚ) * tokensPerChar⌉ = (((n + 3) / 4 : ℕ) : ℤ) := by
  have hq1 : n ≤ 4 * ((n + 3) / 4) := by omega
  have hq2 : 4 * ((n + 3) / 4) ≤ n + 3 := by omega
  have h1 : (n : ℚ) ≤ 4 * (((n + 3) / 4 : ℕ) : ℚ) := by exact_mod_cast hq1
  have h2 : 4 * (((n + 3) / 4 : ℕ) : ℚ) ≤ (n : ℚ) + 3 := by exact_mod_cast hq2
  rw [tokensPerChar_eq, Int.ceil_eq_iff]
  simp only [Int.cast_natCast]
  constructor
  · linarith
  · linarith

/-- C8: for every text string, estimateTokenCount is exactly the ceiling of the
character count times 0.25 (equivalently, (length + 3) / 4 in integer
arithmetic); in particular it is 1 on the four-character string aaaa and 0 on
the empty string, and being a pure function it is deterministic. -/
theorem C8_estimateTokenCount :
    (∀ text : String,
      (estimateTokenCount text : ℤ) = ⌈(text.length : ℚ) * (0.25 : ℚ)⌉ ∧
      estimateTokenCount text = (text.length + 3) / 4) ∧
    estimateTokenCount "aaaa" = 1 ∧ estimateTokenCount "" = 0 := by
  have key : ∀ text : String, estimateTokenCount text = (text.length + 3) / 4 := by
    intro text
    unfold estimateTokenCount
    by_cases h : text = ""
    · subst h
      simp
    · rw [if_neg h, ceil_quarter]
      exact Int.toNat_natCast _
  have hq : (0.25 : ℚ) = tokensPerChar := by norm_num [tokensPerChar]
  refine ⟨fun text => ⟨?_, key text⟩, ?_, ?_⟩
  · rw [key text, hq, ceil_quarter]
  · rw [key]
    rfl
  · rw [key]
    rfl

/-! ## Claim C1: eviction invariant of addMessage -/

/-- C1: in any sequence of successful addMessage calls with positive
maxMessages, each call leaves the live message list of the target conversation
at length at most maxMessages; when the pushed list exceeds the bound, exactly
the oldest (live count minus maxMessages) messages are dropped from the front,
regardless of role, and the summary field is untouched. -/
theorem C1_eviction_invariant (s : MemState) (now : Nat) (role content : String)
    (cid : Option Nat) (t : Nat) (conv : Conversation)
    (hmax : 0 < s.options.maxMessages)
    (ht : resolveTarget s cid = some t)
    (hconv : mapGet s.conversations t = some conv) :
    ∃ conv',
      mapGet (addMessage s now role content cid).1.conversations t = some conv' ∧
      (conv'.messages.length : Int) ≤ s.options.maxMessages ∧
      conv'.messages =
        (if (((conv.messages ++
              [({ id := s.nextId, role := role, content := content,
                  timestamp := now } : Message)]).length : Int) >
            s.options.maxMessages) then
          (conv.messages ++
            [({ id := s.nextId, role := role, content := content,
                timestamp := now } : Message)]).drop
            ((conv.messages ++
              [({ id := s.nextId, role := role, content := content,
                  timestamp := now } : Message)]).length -
              s.options.maxMessages.toNat)
        else
          conv.messages ++
            [({ id := s.nextId, role := role, content := content,
                timestamp := now } : Message)]) ∧
      conv'.summary = conv.summary := by
  rw [addMessage_eq s now role content cid t conv ht hconv]
  refine ⟨_, mapGet_mapSet_self _ _ _, ?_, ?_, rfl⟩
  · by_cases hc : (((conv.messages ++
        [({ id := s.nextId, role := role, content := content,
            timestamp := now } : Message)]).length : Int) > s.options.maxMessages)
    · rw [if_pos ⟨hmax, hc⟩]
      simp only [List.length_drop, List.length_append, List.length_cons,
        List.length_nil] at hc ⊢
      omega
    · rw [if_neg (fun hand => hc hand.2)]
      simp only [List.length_append, List.length_cons, List.length_nil] at hc ⊢
      omega
  · by_cases hc : (((conv.messages ++
        [({ id := s.nextId, role := role, content := content,
            timestamp := now } : Message)]).length : Int) > s.options.maxMessages)
    · rw [if_pos ⟨hmax, hc⟩, if_pos hc]
    · rw [if_neg (fun hand => hc hand.2), if_neg hc]

/-- C1 witness: the hypotheses of C1_eviction_invariant hold at a concrete call
(the demo memory, one user message into conversation 1). -/
theorem C1_witness :
    ∃ conv',
      mapGet (addMessage demoMem 1 "user" "x" (some 1)).1.conversations 1 = some conv' ∧
      (conv'.messages.length : Int) ≤ demoMem.options.maxMessages ∧
      conv'.messages =
        (if (((demoConv.messages ++
              [({ id := demoMem.nextId, role := "user", content := "x",
                  timestamp := 1 } : Message)]).length : Int) >
            demoMem.options.maxMessages) then
          (demoConv.messages ++
            [({ id := demoMem.nextId, role := "user", content := "x",
                timestamp := 1 } : Message)]).drop
            ((demoConv.messages ++
              [({ id := demoMem.nextId, role := "user", content := "x",
                  timestamp := 1 } : Message)]).length -
              demoMem.options.maxMessages.toNat)
        else
          demoConv.messages ++
            [({ id := demoMem.nextId, role := "user", content := "x",
                timestamp := 1 } : Message)]) ∧
      conv'.summary = demoConv.summary :=
  C1_eviction_invariant demoMem 1 "user" "x" (some 1) 1 demoConv (by decide)
    (by decide) (by decide)

/-! ## Claim C10: addMessage accepts any role string verbatim -/

/-- C10: addMessage performs no validation of the role argument: whenever a
target conversation resolves, the call succeeds for an arbitrary role string,
and the stored message (still the last live message after any eviction) carries
the role and content verbatim. -/
theorem C10_no_role_validation (s : MemState) (now : Nat) (role content : String)
    (cid : Option Nat) (t : Nat) (conv : Conversation)
    (ht : resolveTarget s cid = some t)
    (hconv : mapGet s.conversations t = some conv) :
    ∃ m, (addMessage s now role content cid).2 = some m ∧ m.role = role ∧
      m.content = content ∧
      ∃ conv',
        mapGet (addMessage s now role content cid).1.conversations t = some conv' ∧
        conv'.messages.getLast? = some m := by
  rw [addMessage_eq s now role content cid t conv ht hconv]
  refine ⟨_, rfl, rfl, rfl, _, mapGet_mapSet_self _ _ _, ?_⟩
  by_cases hc : (s.options.maxMessages > 0 ∧
      (((conv.messages ++
          [({ id := s.nextId, role := role, content := content,
              timestamp := now } : Message)]).length : Int) >
        s.options.maxMessages))
  · rw [if_pos hc]
    rw [List.drop_append_eq_append_drop]
    have hd : (conv.messages ++
        [({ id := s.nextId, role := role, content := content,
            timestamp := now } : Message)]).length -
        s.options.maxMessages.toNat - conv.messages.length = 0 := by
      simp only [List.length_append, List.length_cons, List.length_nil]
      omega
    rw [hd]
    simp
  · rw [if_neg hc]
    simp

/-- C10 witness: a role string outside the system/user/assistant set is stored
verbatim. -/
theorem C10_witness :
    ∃ m, (addMessage demoMem 1 "banana" "hello" (some 1)).2 = some m ∧
      m.role = "banana" ∧ m.content = "hello" ∧
      ∃ conv',
        mapGet (addMessage demoMem 1 "banana" "hello" (some 1)).1.conversations 1
          = some conv' ∧
        conv'.messages.getLast? = some m :=
  C10_no_role_validation demoMem 1 "banana" "hello" (some 1) 1 demoConv
    (by decide) (by decide)

/-! ## Claim C9: createConversation -/

/-- C9 counterexample: createConversation does not always set messageCount to 0.
The object spread in the source lets the metadata argument override the
messageCount default, so a caller-supplied messageCount of 5 is stored as 5. -/
theorem C9_counterexample :
    (mapGet (createConversation (initMemState {}) 0
          { messageCount := some 5 }).1.conversations
        (createConversation (initMemState {}) 0 { messageCount := some 5 }).2).map
      (fun c => c.metadata.messageCount) = some 5 ∧ (5 : Int) ≠ 0 := by
  decide

/-- C9 as amended: for every metadata argument that does not itself carry the
created, lastUpdated or messageCount keys, createConversation returns a fresh
id (given the fresh-id invariant of the id supply) whose conversation has an
empty message list, both timestamps equal to now, messageCount 0 and a null
summary, and that conversation is active afterwards. -/
theorem C9_amended (s : MemState) (now : Nat) (md : MetadataArg)
    (hinv : memInv s) (hc : md.created = none) (hl : md.lastUpdated = none)
    (hm : md.messageCount = none) :
    mapGet s.conversations (createConversation s now md).2 = none ∧
    ∃ conv,
      mapGet (createConversation s now md).1.conversations
        (createConversation s now md).2 = some conv ∧
      conv.messages = [] ∧ conv.metadata.created = now ∧
      conv.metadata.lastUpdated = now ∧ conv.metadata.messageCount = 0 ∧
      conv.summary = none ∧
      (createConversation s now md).1.activeConversationId
        = some (createConversation s now md).2 ∧
      getActiveConversation (createConversation s now md).1 = some conv := by
  constructor
  · cases hfresh : mapGet s.conversations (createConversation s now md).2 with
    | none => rfl
    | some v =>
      exact absurd (hinv _ (mapGet_mem _ _ _ hfresh)) (lt_irrefl _)
  · refine ⟨_, mapGet_mapSet_self _ _ _, rfl, ?_, ?_, ?_, rfl, rfl, ?_⟩
    · simp [createConversation, hc]
    · simp [createConversation, hl]
    · simp [createConversation, hm]
    · simp only [getActiveConversation, createConversation]
      exact mapGet_mapSet_self _ _ _

/-- C9 witness: the amended statement instantiated at a fresh store and an
override-free metadata argument. -/
theorem C9_witness :
    mapGet (initMemState {}).conversations
        (createConversation (initMemState {}) 3 {}).2 = none ∧
    ∃ conv,
      mapGet (createConversation (initMemState {}) 3 {}).1.conversations
        (createConversation (initMemState {}) 3 {}).2 = some conv ∧
      conv.messages = [] ∧ conv.metadata.created = 3 ∧
      conv.metadata.lastUpdated = 3 ∧ conv.metadata.messageCount = 0 ∧
      conv.summary = none ∧
      (createConversation (initMemState {}) 3 {}).1.activeConversationId
        = some (createConversation (initMemState {}) 3 {}).2 ∧
      getActiveConversation (createConversation (initMemState {}) 3 {}).1
        = some conv :=
  C9_amended (initMemState {}) 3 {} (by decide) rfl rfl rfl

/-! ## Claim C3: keyword scoring and tool selection -/

/-- The running best score of the fold never decreases. -/
theorem bestToolAux_snd_mono (np : String) (tools : List Tool)
    (acc : Option Tool × Nat) : acc.2 ≤ (bestToolAux np acc tools).2 := by
  induction tools generalizing acc with
  | nil => exact le_refl _
  | cons tool rest ih =>
    by_cases h : toolScore tool np > acc.2
    · have hstep : bestToolAux np acc (tool :: rest)
          = bestToolAux np (some tool, toolScore tool np) rest := by
        simp [bestToolAux, h]
      rw [hstep]
      exact le_trans (le_of_lt h) (ih (some tool, toolScore tool np))
    · have hstep : bestToolAux np acc (tool :: rest) = bestToolAux np acc rest := by
        simp [bestToolAux, h]
      rw [hstep]
      exact ih acc

/-- When the fold returns with an unchanged best score, no walked tool scored
above the accumulator. -/
theorem bestToolAux_no_improvement (np : String) (tools : List Tool)
    (acc : Option Tool × Nat) (h : (bestToolAux np acc tools).2 = acc.2) :
    ∀ u ∈ tools, toolScore u np ≤ acc.2 := by
  induction tools generalizing acc with
  | nil => intro u hu; cases hu
  | cons tool rest ih =>
    by_cases hs : toolScore tool np > acc.2
    · exfalso
      have hstep : bestToolAux np acc (tool :: rest)
          = bestToolAux np (some tool, toolScore tool np) rest := by
        simp [bestToolAux, hs]
      have := bestToolAux_snd_mono np rest (some tool, toolScore tool np)
      rw [hstep] at h
      omega
    · have hstep : bestToolAux np acc (tool :: rest) = bestToolAux np acc rest := by
        simp [bestToolAux, hs]
      rw [hstep] at h
      intro u hu
      rcases List.mem_cons.mp hu with hu | hu
      · subst hu; exact not_lt.mp hs
      · exact ih acc h u hu

/-- Characterization of the best-match fold: either no tool ever beat the
accumulator, or the result is the tool of the last strict improvement; every
earlier tool and the accumulator then score strictly below it and every later
tool scores no higher (ties never displace it). -/
theorem bestToolAux_spec (np : String) (tools : List Tool) (acc : Option Tool × Nat) :
    bestToolAux np acc tools = acc ∨
    ∃ l₁ t l₂, tools = l₁ ++ t :: l₂ ∧
      bestToolAux np acc tools = (some t, toolScore t np) ∧
      acc.2 < toolScore t np ∧
      (∀ u ∈ l₁, toolScore u np < toolScore t np) ∧
      (∀ u ∈ l₂, toolScore u np ≤ toolScore t np) := by
  induction tools generalizing acc with
  | nil => left; rfl
  | cons tool rest ih =>
    by_cases h : toolScore tool np > acc.2
    · have hstep : bestToolAux np acc (tool :: rest)
          = bestToolAux np (some tool, toolScore tool np) rest := by
        simp [bestToolAux, h]
      rcases ih (some tool, toolScore tool np) with h1 |
        ⟨l₁, t, l₂, heq, hres, hlt, hall, hpost⟩
      · right
        refine ⟨[], tool, rest, rfl, by rw [hstep, h1], h, by simp, ?_⟩
        exact bestToolAux_no_improvement np rest (some tool, toolScore tool np)
          (by rw [h1])
      · right
        refine ⟨tool :: l₁, t, l₂, by rw [heq]; rfl, by rw [hstep, hres],
          lt_trans h hlt, ?_, hpost⟩
        intro u hu
        rcases List.mem_cons.mp hu with hu | hu
        · subst hu; exact hlt
        · exact hall u hu
    · have hstep : bestToolAux np acc (tool :: rest) = bestToolAux np acc rest := by
        simp [bestToolAux, h]
      rcases ih acc with h1 | ⟨l₁, t, l₂, heq, hres, hlt, hall, hpost⟩
      · left; rw [hstep, h1]
      · right
        refine ⟨tool :: l₁, t, l₂, by rw [heq]; rfl, by rw [hstep, hres], hlt, ?_, hpost⟩
        intro u hu
        rcases List.mem_cons.mp hu with hu | hu
        · subst hu
          exact lt_of_le_of_lt (not_lt.mp h) hlt
        · exact hall u hu

/-- C3: a tool is returned by findMatchingTool only with a strictly positive
score that strictly exceeds the score of every earlier-registered tool and is
at least the score of every later-registered tool (so ties go to the
first-registered tool); and on the spec example, tool A with keywords git diff
and diff scores 8 + 4 + 10 = 22, tool B with keyword status scores 6, and A is
selected. -/
theorem C3_findMatchingTool (tools : List Tool) (prompt : String) (t : Tool)
    (h : findMatchingTool tools prompt = some t) :
    (0 < toolScore t (lowerStr prompt) ∧
      ∃ l₁ l₂, tools = l₁ ++ t :: l₂ ∧
        (∀ u ∈ l₁, toolScore u (lowerStr prompt) < toolScore t (lowerStr prompt)) ∧
        (∀ u ∈ l₂, toolScore u (lowerStr prompt) ≤ toolScore t (lowerStr prompt))) ∧
    toolScore toolA (lowerStr demoPrompt) = 22 ∧
    toolScore toolB (lowerStr demoPrompt) = 6 ∧
    findMatchingTool [toolA, toolB] demoPrompt = some toolA := by
  refine ⟨?_, by decide, by decide, by decide⟩
  unfold findMatchingTool at h
  rcases bestToolAux_spec (lowerStr prompt) tools ((none : Option Tool), 0) with
    h1 | ⟨l₁, t', l₂, heq, hres, hlt, hall, hpost⟩
  · rw [h1] at h
    simp at h
  · rw [hres] at h
    by_cases hpos : toolScore t' (lowerStr prompt) > 0
    · rw [if_pos hpos] at h
      simp only [Option.some.injEq] at h
      subst h
      exact ⟨hpos, l₁, l₂, heq, hall, hpost⟩
    · rw [if_neg hpos] at h
      cases h

/-- C3 witness: the selection theorem instantiated on the spec example, where
tool A is returned. -/
theorem C3_witness :
    (0 < toolScore toolA (lowerStr demoPrompt) ∧
      ∃ l₁ l₂, [toolA, toolB] = l₁ ++ toolA :: l₂ ∧
        (∀ u ∈ l₁,
          toolScore u (lowerStr demoPrompt) < toolScore toolA (lowerStr demoPrompt)) ∧
        (∀ u ∈ l₂,
          toolScore u (lowerStr demoPrompt) ≤ toolScore toolA (lowerStr demoPrompt))) ∧
    toolScore toolA (lowerStr demoPrompt) = 22 ∧
    toolScore toolB (lowerStr demoPrompt) = 6 ∧
    findMatchingTool [toolA, toolB] demoPrompt = some toolA :=
  C3_findMatchingTool [toolA, toolB] demoPrompt toolA (by decide)

/-! ## Claim C2: messageCount across operation traces -/

theorem setActive_conversations (s : MemState) (id : Nat) :
    (setActiveConversation s id).1.conversations = s.conversations := by
  unfold setActiveConversation
  split <;> rfl

theorem setActive_nextId (s : MemState) (id : Nat) :
    (setActiveConversation s id).1.nextId = s.nextId := by
  unfold setActiveConversation
  split <;> rfl

theorem memStep_nextId (s : MemState) (op : MemOp) :
    s.nextId ≤ (memStep s op).nextId := by
  cases op with
  | create now md => simp [memStep, createConversation]
  | setActive id => simp [memStep, setActive_nextId]
  | add now role content cid =>
    simp only [memStep]
    cases hr : resolveTarget s cid with
    | none => simp [addMessage, hr]
    | some t =>
      cases hm : mapGet s.conversations t with
      | none => simp [addMessage, hr, hm]
      | some conv =>
        rw [addMessage_eq s now role content cid t conv hr hm]
        exact Nat.le_succ _
  | delete id =>
    simp only [memStep, deleteConversation]
    split
    · split <;> simp
    · simp
  | clearAll => simp [memStep, clearAllConversations]

theorem memInv_step (s : MemState) (op : MemOp) (h : memInv s) :
    memInv (memStep s op) := by
  cases op with
  | create now md =>
    intro e he
    simp only [memStep, createConversation] at he ⊢
    rcases mem_mapSet _ _ _ _ he with he | he
    · exact lt_trans (h e he) (Nat.lt_succ_self _)
    · subst he; exact Nat.lt_succ_self _
  | setActive id =>
    intro e he
    rw [memStep, setActive_conversations] at he
    rw [memStep, setActive_nextId]
    exact h e he
  | add now role content cid =>
    simp only [memStep]
    cases hr : resolveTarget s cid with
    | none => simpa [addMessage, hr] using h
    | some t =>
      cases hm : mapGet s.conversations t with
      | none => simpa [addMessage, hr, hm] using h
      | some conv =>
        rw [addMessage_eq s now role content cid t conv hr hm]
        intro e he
        simp only at he ⊢
        rcases mem_mapSet _ _ _ _ he with he | he
        · exact lt_trans (h e he) (Nat.lt_succ_self _)
        · subst he
          exact lt_trans (h (t, conv) (mapGet_mem _ _ _ hm)) (Nat.lt_succ_self _)
  | delete id =>
    simp only [memStep, deleteConversation]
    split
    · split
      · intro e he
        simp only at he ⊢
        exact h e (mem_mapDelete _ _ _ he)
      · intro e he
        simp only at he ⊢
        exact h e (mem_mapDelete _ _ _ he)
    · exact h
  | clearAll =>
    intro e he
    simp [memStep, clearAllConversations] at he

theorem memStep_absent (s : MemState) (op : MemOp) (i : Nat) (_hinv : memInv s)
    (hlt : i < s.nextId) (habs : mapGet s.conversations i = none) :
    mapGet (memStep s op).conversations i = none := by
  cases op with
  | create now md =>
    simp only [memStep, createConversation]
    rw [mapGet_mapSet_ne _ _ _ _ (Nat.ne_of_lt hlt)]
    exact habs
  | setActive id => rw [memStep, setActive_conversations]; exact habs
  | add now role content cid =>
    simp only [memStep]
    cases hr : resolveTarget s cid with
    | none => simp [addMessage, hr, habs]
    | some t =>
      cases hm : mapGet s.conversations t with
      | none => simp [addMessage, hr, hm, habs]
      | some conv =>
        rw [addMessage_eq s now role content cid t conv hr hm]
        have hne : i ≠ t := fun he => by
          subst he
          rw [habs] at hm
          cases hm
        simp only
        rw [mapGet_mapSet_ne _ _ _ _ hne]
        exact habs
  | delete id =>
    simp only [memStep, deleteConversation]
    split
    · split
      · simp only
        rw [mapGet_mapDelete]
        split <;> [rfl; exact habs]
      · simp only
        rw [mapGet_mapDelete]
        split <;> [rfl; exact habs]
    · exact habs
  | clearAll => simp [memStep, clearAllConversations, mapGet]

theorem memRun_absent (ops : List MemOp) (s : MemState) (i : Nat) (hinv : memInv s)
    (hlt : i < s.nextId) (habs : mapGet s.conversations i = none) :
    mapGet (memRun s ops).conversations i = none := by
  induction ops generalizing s with
  | nil => exact habs
  | cons op rest ih =>
    have hrun : memRun s (op :: rest) = memRun (memStep s op) rest := rfl
    rw [hrun]
    exact ih (memStep s op) (memInv_step s op hinv)
      (lt_of_lt_of_le hlt (memStep_nextId s op))
      (memStep_absent s op i hinv hlt habs)

/-- Core trace lemma: across any operation sequence, the messageCount of a
conversation that survives grows by exactly the number of successful
addMessage calls that targeted it. -/
theorem memRun_messageCount (ops : List MemOp) (s : MemState) (i : Nat)
    (conv conv' : Conversation) (hinv : memInv s)
    (hc : mapGet s.conversations i = some conv)
    (hc' : mapGet (memRun s ops).conversations i = some conv') :
    conv'.metadata.messageCount
      = conv.metadata.messageCount + (countAdds s ops i : Int) := by
  induction ops generalizing s conv with
  | nil =>
    simp only [memRun, List.foldl_nil] at hc'
    rw [hc] at hc'
    cases hc'
    simp [countAdds]
  | cons op rest ih =>
    have hlt : i < s.nextId := hinv _ (mapGet_mem _ _ _ hc)
    have hrun : memRun s (op :: rest) = memRun (memStep s op) rest := rfl
    rw [hrun] at hc'
    have hinv' : memInv (memStep s op) := memInv_step s op hinv
    cases op with
    | create now md =>
      have hmid : mapGet (memStep s (MemOp.create now md)).conversations i = some conv := by
        simp only [memStep, createConversation]
        rw [mapGet_mapSet_ne _ _ _ _ (Nat.ne_of_lt hlt)]
        exact hc
      rw [ih (memStep s (MemOp.create now md)) conv hinv' hmid hc']
      simp [countAdds]
    | setActive id =>
      have hmid : mapGet (memStep s (MemOp.setActive id)).conversations i = some conv := by
        simp only [memStep]
        rw [setActive_conversations]
        exact hc
      rw [ih (memStep s (MemOp.setActive id)) conv hinv' hmid hc']
      simp [countAdds]
    | add now role content cid =>
      cases hr : resolveTarget s cid with
      | none =>
        have hstep : memStep s (MemOp.add now role content cid) = s := by
          simp [memStep, addMessage, hr]
        rw [hstep] at hc' hinv'
        rw [ih s conv hinv' hc hc']
        simp [countAdds, hr, hstep]
      | some t =>
        cases hm : mapGet s.conversations t with
        | none =>
          have hstep : memStep s (MemOp.add now role content cid) = s := by
            simp [memStep, addMessage, hr, hm]
          have hsnd : (addMessage s now role content cid).2 = none := by
            simp [addMessage, hr, hm]
          rw [hstep] at hc' hinv'
          rw [ih s conv hinv' hc hc']
          simp [countAdds, hstep, hsnd]
        | some c =>
          have heq := addMessage_eq s now role content cid t c hr hm
          have hsnd : (addMessage s now role content cid).2.isSome = true := by
            rw [heq]
            rfl
          by_cases hti : t = i
          · subst hti
            have hcc : c = conv := by
              rw [hm] at hc
              cases hc
              rfl
            subst hcc
            have hmid : mapGet (memStep s (MemOp.add now role content cid)).conversations t
                = some { c with
                    messages :=
                      if s.options.maxMessages > 0 ∧
                          (((c.messages ++
                              [({ id := s.nextId, role := role, content := content,
                                  timestamp := now } : Message)]).length : Int) >
                            s.options.maxMessages) then
                        (c.messages ++
                          [({ id := s.nextId, role := role, content := content,
                              timestamp := now } : Message)]).drop
                          ((c.messages ++
                            [({ id := s.nextId, role := role, content := content,
                                timestamp := now } : Message)]).length -
                            s.options.maxMessages.toNat)
                      else
                        c.messages ++
                          [({ id := s.nextId, role := role, content := content,
                              timestamp := now } : Message)]
                    metadata :=
                      { c.metadata with
                          messageCount := c.metadata.messageCount + 1
                          lastUpdated := now } } := by
              simp only [memStep]
              rw [heq]
              exact mapGet_mapSet_self _ _ _
            rw [ih (memStep s (MemOp.add now role content cid)) _ hinv' hmid hc']
            simp only [countAdds, hr, hsnd, and_true, if_pos rfl]
            push_cast
            ring
          · have hmid : mapGet (memStep s (MemOp.add now role content cid)).conversations i
                = some conv := by
              simp only [memStep]
              rw [heq]
              simp only
              rw [mapGet_mapSet_ne _ _ _ _ (fun h => hti h.symm)]
              exact hc
            rw [ih (memStep s (MemOp.add now role content cid)) conv hinv' hmid hc']
            have hcond : ¬(resolveTarget s cid = some i ∧
                (addMessage s now role content cid).2.isSome = true) := by
              intro hand
              rw [hr] at hand
              exact hti (Option.some.injEq _ _ |>.mp hand.1)
            simp [countAdds, hcond]
    | delete id =>
      by_cases hd : (mapGet s.conversations id).isSome = true
      · by_cases hdi : id = i
        · subst hdi
          exfalso
          have habs : mapGet (memStep s (MemOp.delete id)).conversations id = none := by
            simp only [memStep, deleteConversation, hd, if_true]
            split
            · simp only
              rw [mapGet_mapDelete]
              simp
            · simp only
              rw [mapGet_mapDelete]
              simp
          have hfin := memRun_absent rest _ id hinv'
            (lt_of_lt_of_le hlt (memStep_nextId _ _)) habs
          rw [hfin] at hc'
          cases hc'
        · have hmid : mapGet (memStep s (MemOp.delete id)).conversations i = some conv := by
            simp only [memStep, deleteConversation, hd, if_true]
            split
            · simp only
              rw [mapGet_mapDelete, if_neg (fun h => hdi h.symm)]
              exact hc
            · simp only
              rw [mapGet_mapDelete, if_neg (fun h => hdi h.symm)]
              exact hc
          rw [ih (memStep s (MemOp.delete id)) conv hinv' hmid hc']
          simp [countAdds]
      · have hstep : memStep s (MemOp.delete id) = s := by
          simp [memStep, deleteConversation, hd]
        rw [hstep] at hc' hinv'
        rw [ih s conv hinv' hc hc']
        simp [countAdds, hstep]
    | clearAll =>
      exfalso
      have habs : mapGet (memStep s MemOp.clearAll).conversations i = none := by
        simp [memStep, clearAllConversations, mapGet]
      have hfin := memRun_absent rest _ i hinv'
        (lt_of_lt_of_le hlt (memStep_nextId _ _)) habs
      rw [hfin] at hc'
      cases hc'

/-- C2 counterexample: messageCount does not always equal the number of
successful addMessage calls.  A conversation created with a metadata argument
that carries messageCount 1 starts at count 1 after zero appends, because
createConversation spreads the caller metadata over the messageCount default. -/
theorem C2_counterexample :
    (mapGet (memRun (initMemState {})
          [MemOp.create 0 { messageCount := some 1 }]).conversations 1).map
        (fun c => c.metadata.messageCount) = some 1 ∧
    countAdds (initMemState {}) [MemOp.create 0 { messageCount := some 1 }] 1 = 0 ∧
    (1 : Int) ≠ 0 := by
  decide

/-- C2 as amended: across every operation sequence, a surviving conversation's
messageCount never decreases, and it grows by exactly the number of successful
addMessage calls that targeted it; hence it equals the total number of
successful appends whenever the creation metadata did not override the
messageCount default of 0. -/
theorem C2_amended (ops : List MemOp) (s : MemState) (i : Nat)
    (conv conv' : Conversation) (hinv : memInv s)
    (hc : mapGet s.conversations i = some conv)
    (hc' : mapGet (memRun s ops).conversations i = some conv') :
    conv.metadata.messageCount ≤ conv'.metadata.messageCount ∧
    conv'.metadata.messageCount
      = conv.metadata.messageCount + (countAdds s ops i : Int) := by
  have h := memRun_messageCount ops s i conv conv' hinv hc hc'
  refine ⟨?_, h⟩
  rw [h]
  exact le_add_of_nonneg_right (Int.natCast_nonneg _)

/-- C2 witness: the amended statement instantiated on the demo memory and a
one-append trace, where the count goes from 0 to 1. -/
theorem C2_witness :
    demoConv.metadata.messageCount ≤ demoConvAfter.metadata.messageCount ∧
    demoConvAfter.metadata.messageCount
      = demoConv.metadata.messageCount
        + (countAdds demoMem [MemOp.add 1 "user" "hi" none] 1 : Int) :=
  C2_amended [MemOp.add 1 "user" "hi" none] demoMem 1 demoConv demoConvAfter
    (by decide) (by decide) (by decide)

/-! ## Claim C7: batch success rules of addFiles and removeFiles -/

theorem addFilesLoop_length (fs : Fs) (paths : List String) :
    ∀ cs : List String, (addFilesLoop fs cs paths).2.length = paths.length := by
  induction paths with
  | nil => intro cs; rfl
  | cons p rest ih =>
    intro cs
    simp [addFilesLoop, ih]

theorem removeFilesLoop_length (fs : Fs) (paths : List String) :
    ∀ cs : List String, (removeFilesLoop fs cs paths).2.length = paths.length := by
  induction paths with
  | nil => intro cs; rfl
  | cons p rest ih =>
    intro cs
    simp [removeFilesLoop, ih]

theorem strContains_iff (cs : List String) (x : String) :
    cs.contains x = true ↔ x ∈ cs := by
  simp [List.contains]

/-- If some requested path was not (any longer) in the context set when the
removal loop started, the loop records a failing entry for it. -/
theorem removeFilesLoop_missing (fs : Fs) (p : String) (paths : List String) :
    ∀ cs : List String, p ∈ paths → fs.resolve p ∉ cs →
    ∃ r ∈ (removeFilesLoop fs cs paths).2, r.success = false := by
  induction paths with
  | nil =>
    intro cs hp _
    cases hp
  | cons q rest ih =>
    intro cs hp hmem
    rcases List.mem_cons.mp hp with hpq | hpr
    · subst hpq
      have hc : ¬(cs.contains (fs.resolve p) = true) :=
        fun h => hmem ((strContains_iff _ _).mp h)
      simp only [removeFilesLoop, if_neg hc]
      exact ⟨_, List.mem_cons_self _ _, rfl⟩
    · by_cases hc : cs.contains (fs.resolve q) = true
      · simp only [removeFilesLoop, if_pos hc]
        have hmem' : fs.resolve p ∉ cs.erase (fs.resolve q) :=
          fun h => hmem (List.mem_of_mem_erase h)
        obtain ⟨r, hr, hrs⟩ := ih (cs.erase (fs.resolve q)) hpr hmem'
        exact ⟨r, List.mem_cons_of_mem _ hr, hrs⟩
      · simp only [removeFilesLoop, if_neg hc]
        obtain ⟨r, hr, hrs⟩ := ih cs hpr hmem
        exact ⟨r, List.mem_cons_of_mem _ hr, hrs⟩

/-- C7: addFiles reports overall success iff at least one entry of the batch
succeeded, while removeFiles reports overall success iff every requested
removal succeeded; both return one entry per requested path, and a path whose
resolved form is not in the context set makes the whole removeFiles batch
fail. -/
theorem C7_batch_semantics (fs : Fs) (ctx : CtxState) (cid : Nat)
    (paths : List String) :
    ((addFiles fs ctx cid paths).2.success = true ↔
      ∃ r ∈ (addFiles fs ctx cid paths).2.results, r.success = true) ∧
    (addFiles fs ctx cid paths).2.results.length = paths.length ∧
    ((removeFiles fs ctx cid paths).2.success = true ↔
      ∀ r ∈ (removeFiles fs ctx cid paths).2.results, r.success = true) ∧
    (removeFiles fs ctx cid paths).2.results.length = paths.length ∧
    (∀ p ∈ paths,
      fs.resolve p ∉ (mapGet (initializeContext ctx cid).contextFiles cid).getD [] →
      (removeFiles fs ctx cid paths).2.success = false) := by
  refine ⟨?_, ?_, ?_, ?_, ?_⟩
  · simp [addFiles, List.any_eq_true]
  · simp [addFiles, addFilesLoop_length]
  · simp [removeFiles, List.all_eq_true]
  · simp [removeFiles, removeFilesLoop_length]
  · intro p hp hmem
    obtain ⟨r, hr, hrs⟩ := removeFilesLoop_missing fs p paths _ hp hmem
    simp only [removeFiles]
    by_contra hcon
    rw [Bool.not_eq_false] at hcon
    have hall := List.all_eq_true.mp hcon r hr
    simp [hrs] at hall

/-- C7 witness: removing a never-added path fails the whole batch. -/
theorem C7_witness :
    (removeFiles emptyFs initCtxState 1 ["a"]).2.success = false :=
  (C7_batch_semantics emptyFs initCtxState 1 ["a"]).2.2.2.2 "a" (by decide) (by decide)

/-! ## Claims C4 and C5: the two shapes of a sendMessage turn -/

/-- A successful addMessage call that stays within the bound appends exactly one
message. -/
theorem addMessage_noEvict (s : MemState) (now : Nat) (role content : String)
    (cid : Option Nat) (t : Nat) (conv : Conversation)
    (ht : resolveTarget s cid = some t)
    (hconv : mapGet s.conversations t = some conv)
    (hroom : (conv.messages.length : Int) + 1 ≤ s.options.maxMessages ∨
      s.options.maxMessages ≤ 0) :
    addMessage s now role content cid =
      ({ s with
          conversations := mapSet s.conversations t
            { conv with
                messages := conv.messages ++
                  [({ id := s.nextId, role := role, content := content,
                      timestamp := now } : Message)]
                metadata :=
                  { conv.metadata with
                      messageCount := conv.metadata.messageCount + 1
                      lastUpdated := now } }
          nextId := s.nextId + 1 },
       some { id := s.nextId, role := role, content := content, timestamp := now }) := by
  rw [addMessage_eq s now role content cid t conv ht hconv]
  have hcond : ¬(s.options.maxMessages > 0 ∧
      (((conv.messages ++
          [({ id := s.nextId, role := role, content := content,
              timestamp := now } : Message)]).length : Int) >
        s.options.maxMessages)) := by
    intro hand
    rcases hand with ⟨h1, h2⟩
    simp only [List.length_append, List.length_cons, List.length_nil] at h2
    push_cast at h2
    rcases hroom with hr | hr <;> omega
  rw [if_neg hcond]

/-- C4: when tool dispatch matches a tool whose handler reports success,
sendMessage appends exactly two messages, the raw user text as a user message
and the tagged tool result as an assistant message, and the model client is
not called (no request view is built for it). -/
theorem C4_tool_turn (env : ChatEnv) (s : ChatState) (message : String) (cid : Nat)
    (conv : Conversation)
    (hinit : s.initialized = true)
    (htool : (executeToolFromPrompt env.handler s.tools message).success = true)
    (hactive : s.activeConversationId = some cid)
    (hconv : mapGet s.mem.conversations cid = some conv)
    (hroom : (conv.messages.length : Int) + 2 ≤ s.mem.options.maxMessages ∨
      s.mem.options.maxMessages ≤ 0) :
    ∃ s' res, sendMessage env s message = some (s', res) ∧
      res.request = none ∧ res.isToolResult = true ∧ res.success = true ∧
      ∃ conv', mapGet s'.mem.conversations cid = some conv' ∧
        conv'.messages = conv.messages ++
          [({ id := s.mem.nextId, role := "user", content := message,
              timestamp := env.now } : Message),
           ({ id := s.mem.nextId + 1, role := "assistant",
              content := "[Tool: "
                ++ (executeToolFromPrompt env.handler s.tools message).toolName
                ++ "]\n\n"
                ++ (executeToolFromPrompt env.handler s.tools message).result,
              timestamp := env.now } : Message)] ∧
        conv'.summary = conv.summary := by
  have ht1 : resolveTarget s.mem s.activeConversationId = some cid := by
    rw [hactive]
    rfl
  have hadd1 := addMessage_noEvict s.mem env.now "user" message s.activeConversationId
    cid conv ht1 hconv
    (by rcases hroom with h | h
        · exact Or.inl (by omega)
        · exact Or.inr h)
  have hadd2 := addMessage_noEvict
    ({ s.mem with
        conversations := mapSet s.mem.conversations cid
          { conv with
              messages := conv.messages ++
                [({ id := s.mem.nextId, role := "user", content := message,
                    timestamp := env.now } : Message)]
              metadata :=
                { conv.metadata with
                    messageCount := conv.metadata.messageCount + 1
                    lastUpdated := env.now } }
        nextId := s.mem.nextId + 1 }) env.now
    "assistant"
    ("[Tool: " ++ (executeToolFromPrompt env.handler s.tools message).toolName
      ++ "]\n\n" ++ (executeToolFromPrompt env.handler s.tools message).result)
    s.activeConversationId cid
    { conv with
        messages := conv.messages ++
          [({ id := s.mem.nextId, role := "user", content := message,
              timestamp := env.now } : Message)]
        metadata :=
          { conv.metadata with
              messageCount := conv.metadata.messageCount + 1
              lastUpdated := env.now } }
    (by rw [hactive]; rfl)
    (mapGet_mapSet_self _ _ _)
    (by simp only [List.length_append, List.length_cons, List.length_nil]
        push_cast
        rcases hroom with h | h
        · exact Or.inl (by omega)
        · exact Or.inr h)
  simp only [sendMessage, hinit, if_true, htool, hadd1, hadd2]
  refine ⟨_, _, rfl, rfl, rfl, rfl, _, mapGet_mapSet_self _ _ _, ?_, rfl⟩
  simp

/-- C4 witness: a turn on the demo session where the demo tool matches and its
handler succeeds. -/
theorem C4_witness :
    ∃ s' res, sendMessage demoEnvTool demoChat "hi there" = some (s', res) ∧
      res.request = none ∧ res.isToolResult = true ∧ res.success = true ∧
      ∃ conv', mapGet s'.mem.conversations 1 = some conv' ∧
        conv'.messages = demoConv.messages ++
          [({ id := demoChat.mem.nextId, role := "user", content := "hi there",
              timestamp := demoEnvTool.now } : Message),
           ({ id := demoChat.mem.nextId + 1, role := "assistant",
              content := "[Tool: "
                ++ (executeToolFromPrompt demoEnvTool.handler demoChat.tools
                    "hi there").toolName
                ++ "]\n\n"
                ++ (executeToolFromPrompt demoEnvTool.handler demoChat.tools
                    "hi there").result,
              timestamp := demoEnvTool.now } : Message)] ∧
        conv'.summary = demoConv.summary :=
  C4_tool_turn demoEnvTool demoChat "hi there" 1 demoConv rfl (by decide) rfl
    (by decide) (by decide)

/-- C5: on a turn that reaches the model path, the stored user message is the
raw text, and the request handed to the model client is exactly the stored
history with only the content of the last (user) message replaced by the
assembled context followed by the raw text (nothing is prepended when the
context is empty); the stored history keeps the raw text, followed only by the
assistant reply when the model call succeeds. -/
theorem C5_model_turn (env : ChatEnv) (s : ChatState) (message : String) (cid : Nat)
    (conv : Conversation)
    (hinit : s.initialized = true)
    (htool : (executeToolFromPrompt env.handler s.tools message).success = false)
    (hactive : s.activeConversationId = some cid)
    (hconv : mapGet s.mem.conversations cid = some conv)
    (hroom : (conv.messages.length : Int) + 2 ≤ s.mem.options.maxMessages ∨
      s.mem.options.maxMessages ≤ 0) :
    ∃ s' res, sendMessage env s message = some (s', res) ∧
      res.request = some (conv.messages ++
        [({ id := s.mem.nextId, role := "user",
            content := if env.fullContext = "" then message
              else env.fullContext ++ message,
            timestamp := env.now } : Message)]) ∧
      getMessages s'.mem (some cid) = some (conv.messages ++
        [({ id := s.mem.nextId, role := "user", content := message,
            timestamp := env.now } : Message)] ++
        (if (env.ollama (conv.messages ++
            [({ id := s.mem.nextId, role := "user",
                content := if env.fullContext = "" then message
                  else env.fullContext ++ message,
                timestamp := env.now } : Message)])).success = true then
          [({ id := s.mem.nextId + 1, role := "assistant",
              content := (env.ollama (conv.messages ++
                [({ id := s.mem.nextId, role := "user",
                    content := if env.fullContext = "" then message
                      else env.fullContext ++ message,
                    timestamp := env.now } : Message)])).response,
              timestamp := env.now } : Message)]
        else [])) := by
  have ht1 : resolveTarget s.mem s.activeConversationId = some cid := by
    rw [hactive]
    rfl
  have hadd1 := addMessage_noEvict s.mem env.now "user" message s.activeConversationId
    cid conv ht1 hconv
    (by rcases hroom with h | h
        · exact Or.inl (by omega)
        · exact Or.inr h)
  have hget : getMessages
      ({ s.mem with
          conversations := mapSet s.mem.conversations cid
            { conv with
                messages := conv.messages ++
                  [({ id := s.mem.nextId, role := "user", content := message,
                      timestamp := env.now } : Message)]
                metadata :=
                  { conv.metadata with
                      messageCount := conv.metadata.messageCount + 1
                      lastUpdated := env.now } }
          nextId := s.mem.nextId + 1 }) s.activeConversationId
      = some (conv.messages ++
          [({ id := s.mem.nextId, role := "user", content := message,
              timestamp := env.now } : Message)]) := by
    rw [hactive]
    simp only [getMessages, resolveTarget]
    rw [mapGet_mapSet_self]
    rfl
  cases hres : (env.ollama (conv.messages ++
      [({ id := s.mem.nextId, role := "user",
          content := if env.fullContext = "" then message
            else env.fullContext ++ message,
          timestamp := env.now } : Message)])).success with
  | true =>
    have hadd2 := addMessage_noEvict
      ({ s.mem with
          conversations := mapSet s.mem.conversations cid
            { conv with
                messages := conv.messages ++
                  [({ id := s.mem.nextId, role := "user", content := message,
                      timestamp := env.now } : Message)]
                metadata :=
                  { conv.metadata with
                      messageCount := conv.metadata.messageCount + 1
                      lastUpdated := env.now } }
          nextId := s.mem.nextId + 1 }) env.now
      "assistant"
      ((env.ollama (conv.messages ++
        [({ id := s.mem.nextId, role := "user",
            content := if env.fullContext = "" then message
              else env.fullContext ++ message,
            timestamp := env.now } : Message)])).response)
      s.activeConversationId cid
      { conv with
          messages := conv.messages ++
            [({ id := s.mem.nextId, role := "user", content := message,
                timestamp := env.now } : Message)]
          metadata :=
            { conv.metadata with
                messageCount := conv.metadata.messageCount + 1
                lastUpdated := env.now } }
      (by rw [hactive]; rfl)
      (mapGet_mapSet_self _ _ _)
      (by simp only [List.length_append, List.length_cons, List.length_nil]
          push_cast
          rcases hroom with h | h
          · exact Or.inl (by omega)
          · exact Or.inr h)
    simp only [sendMessage, hinit, if_true, htool, Bool.false_eq_true, if_false,
      hadd1, hget, List.getLast?_concat, List.dropLast_concat, hres, hadd2]
    refine ⟨_, _, rfl, rfl, ?_⟩
    simp only [getMessages, resolveTarget, mapGet_mapSet_self, Option.map_some]
    simp [List.append_assoc]
  | false =>
    simp only [sendMessage, hinit, if_true, htool, Bool.false_eq_true, if_false,
      hadd1, hget, List.getLast?_concat, List.dropLast_concat, hres]
    refine ⟨_, _, rfl, rfl, ?_⟩
    simp only [getMessages, resolveTarget, mapGet_mapSet_self, Option.map_some]
    simp

/-- C5 witness: a model turn on the demo session with no matching tool, a
nonempty context, and a successful model reply. -/
theorem C5_witness :
    ∃ s' res, sendMessage demoEnvModel demoChatNoTools "tell me" = some (s', res) ∧
      res.request = some (demoConv.messages ++
        [({ id := demoChatNoTools.mem.nextId, role := "user",
            content := if demoEnvModel.fullContext = "" then "tell me"
              else demoEnvModel.fullContext ++ "tell me",
            timestamp := demoEnvModel.now } : Message)]) ∧
      getMessages s'.mem (some 1) = some (demoConv.messages ++
        [({ id := demoChatNoTools.mem.nextId, role := "user", content := "tell me",
            timestamp := demoEnvModel.now } : Message)] ++
        (if (demoEnvModel.ollama (demoConv.messages ++
            [({ id := demoChatNoTools.mem.nextId, role := "user",
                content := if demoEnvModel.fullContext = "" then "tell me"
                  else demoEnvModel.fullContext ++ "tell me",
                timestamp := demoEnvModel.now } : Message)])).success = true then
          [({ id := demoChatNoTools.mem.nextId + 1, role := "assistant",
              content := (demoEnvModel.ollama (demoConv.messages ++
                [({ id := demoChatNoTools.mem.nextId, role := "user",
                    content := if demoEnvModel.fullContext = "" then "tell me"
                      else demoEnvModel.fullContext ++ "tell me",
                    timestamp := demoEnvModel.now } : Message)])).response,
              timestamp := demoEnvModel.now } : Message)]
        else [])) :=
  C5_model_turn demoEnvModel demoChatNoTools "tell me" 1 demoConv rfl rfl rfl
    (by decide) (by decide)

/-! ## Claim C6: deleting the active conversation -/

/-- addMessage never unsets a well-formed active conversation. -/
theorem addMessage_active_isSome (s : MemState) (now : Nat) (role content : String)
    (cid : Option Nat) (h : (getActiveConversation s).isSome = true) :
    (getActiveConversation (addMessage s now role content cid).1).isSome = true := by
  cases hr : resolveTarget s cid with
  | none => simpa [addMessage, hr] using h
  | some t =>
    cases hm : mapGet s.conversations t with
    | none => simpa [addMessage, hr, hm] using h
    | some conv =>
      rw [addMessage_eq s now role content cid t conv hr hm]
      unfold getActiveConversation at h ⊢
      cases hj : s.activeConversationId with
      | none => rw [hj] at h; simp at h
      | some j =>
        rw [hj] at h
        simp only
        by_cases hjt : j = t
        · subst hjt
          rw [mapGet_mapSet_self]
          rfl
        · rw [mapGet_mapSet_ne _ _ _ _ hjt]
          exact h

/-- createNewConversation always leaves an existing active conversation. -/
theorem createNewConversation_getActive (env : ChatEnv) (s : ChatState)
    (md : MetadataArg) :
    (getActiveConversation (createNewConversation env s md).1.mem).isSome = true := by
  unfold createNewConversation
  simp only
  split
  · apply addMessage_active_isSome
    simp only [createConversation, getActiveConversation]
    rw [mapGet_mapSet_self]
    rfl
  · simp only [createConversation, getActiveConversation]
    rw [mapGet_mapSet_self]
    rfl

/-- createNewConversation does not touch the context sets. -/
theorem createNewConversation_ctx (env : ChatEnv) (s : ChatState) (md : MetadataArg) :
    (createNewConversation env s md).1.ctx = s.ctx := by
  unfold createNewConversation
  simp only
  split <;> rfl

/-- C6: immediately after the session deletes the conversation that was active,
the delete reports success, a new active conversation exists in the store, and
both context sets of the deleted conversation are gone. -/
theorem C6_delete_active (env : ChatEnv) (s : ChatState) (cid : Nat)
    (hactive : s.activeConversationId = some cid)
    (hexists : (mapGet s.mem.conversations cid).isSome = true) :
    (chatDeleteConversation env s cid).2 = true ∧
    (getActiveConversation (chatDeleteConversation env s cid).1.mem).isSome = true ∧
    mapGet (chatDeleteConversation env s cid).1.ctx.contextFiles cid = none ∧
    mapGet (chatDeleteConversation env s cid).1.ctx.contextHooks cid = none := by
  have hdel2 : (deleteConversation s.mem cid).2 = true := by
    simp only [deleteConversation, hexists, if_true]
    split <;> rfl
  simp only [chatDeleteConversation, hdel2, if_true, hactive, if_pos rfl]
  refine ⟨trivial, createNewConversation_getActive env _ {}, ?_, ?_⟩
  · rw [createNewConversation_ctx]
    simp [cleanupConversation, mapGet_mapDelete]
  · rw [createNewConversation_ctx]
    simp [cleanupConversation, mapGet_mapDelete]

/-- C6 witness: deleting the active demo conversation leaves a fresh active
conversation and cleaned-up context sets. -/
theorem C6_witness :
    (chatDeleteConversation demoEnvTool demoChat 1).2 = true ∧
    (getActiveConversation (chatDeleteConversation demoEnvTool demoChat 1).1.mem).isSome
      = true ∧
    mapGet (chatDeleteConversation demoEnvTool demoChat 1).1.ctx.contextFiles 1 = none ∧
    mapGet (chatDeleteConversation demoEnvTool demoChat 1).1.ctx.contextHooks 1 = none :=
  C6_delete_active demoEnvTool demoChat 1 rfl (by decide)

end Hikma
